import Mathlib

/-!
Shallow embedding of `src/superconductor_losses.py` (TrafoCalc).

Python floats are modelled as real numbers; the piecewise formulas are
translated literally.  Python's `round(x, d)` (banker's rounding to `d`
decimal places) is modelled over ℝ by `pyRound`/`roundTo`.  Runtime
behaviour on domain violations (Python `ZeroDivisionError`, numpy's silent
NaN results from `np.log` of a non-positive argument) is modelled by the
`PyResult` type: `val x` is an ordinary finite result, `nonfinite` a NaN/Inf
float returned without an exception, `exn msg` a raised Python exception.
-/

noncomputable section

open Real

/-- `scipy.constants.mu_0` (vacuum permeability, CODATA 2018 value). -/
def mu_0 : ℝ := 1.25663706212e-6

/-- Default `C` of `parallel_loss` (empirical factor). -/
def C_def : ℝ := 0.77

/-- Default `ac` of `parallel_loss` (effective tape area). -/
def ac_def : ℝ := 0.31 * 4.1 * 1e-6

/-- Default `bp` of `parallel_loss` (full penetration field). -/
def bp_def : ℝ := 34.4 * 1e-3

/-- Default `K` of `perp_loss` (geometrical factor). -/
def K_def : ℝ := 1.35

/-- Default `w` of `perp_loss` (tape width). -/
def w_def : ℝ := 4.1 * 1e-3

/-- Default `bc` of `perp_loss` (critical magnetic field). -/
def bc_def : ℝ := 15 * 1e-3

/-- `parallel_loss(bpar, f, C, ac, bp)`: parallel component of the AC losses.
Source: `if bpar <= bp: P_par = 2*f*C*ac*bpar**3./(3.*mu_0*bp)` else
`P_par = 2*f*C*ac*bp/(3.*mu_0)*(3.0*bpar - 2.0*bp)`. -/
def parallel_loss (bpar f C ac bp : ℝ) : ℝ :=
  if bpar ≤ bp then 2 * f * C * ac * bpar ^ 3 / (3 * mu_0 * bp)
  else 2 * f * C * ac * bp / (3 * mu_0) * (3 * bpar - 2 * bp)

/-- `logcosh(x)`: `s = np.sign(x) * x; p = np.exp(-2 * s);
return s + np.log1p(p) - np.log(2)`, with `np.log1p(p) = log (1 + p)`. -/
def logcosh (x : ℝ) : ℝ :=
  Real.sign x * x + Real.log (1 + Real.exp (-(2 * (Real.sign x * x)))) -
    Real.log 2

/-- `perp_loss(f, bperp, K, w, bc)` with `beta = bperp / bc` substituted:
`K * f * w**2.0 * pi / mu_0 * bc**2.0 * beta * (2.0/beta * logcosh(beta) - tanh(beta))`. -/
def perp_loss (f bperp K w bc : ℝ) : ℝ :=
  K * f * w ^ 2 * π / mu_0 * bc ^ 2 * (bperp / bc) *
    (2 / (bperp / bc) * logcosh (bperp / bc) - Real.tanh (bperp / bc))

/-- `norris_equation(f, I, Ic)`:
`f * Ic**2 * mu_0 / pi * ((1.0 - I/Ic) * np.log(1.0 - I/Ic) + (I/Ic - I**2/(2*Ic**2)))`. -/
def norris_equation (f I Ic : ℝ) : ℝ :=
  f * Ic ^ 2 * mu_0 / π *
    ((1 - I / Ic) * Real.log (1 - I / Ic) + (I / Ic - I ^ 2 / (2 * Ic ^ 2)))

/-- Python `round` to an integer, modelled over ℝ: round half to even
(banker's rounding), otherwise to the nearest integer. -/
def pyRound (x : ℝ) : ℤ :=
  if Int.fract x = 1 / 2 then (if ⌊x⌋ % 2 = 0 then ⌊x⌋ else ⌊x⌋ + 1)
  else round x

/-- Python `round(x, d)` for `d` decimal places, modelled over ℝ. -/
def roundTo (d : ℕ) (x : ℝ) : ℝ := (pyRound (x * 10 ^ d) : ℝ) / 10 ^ d

/-- `supra_winding_ac_loss(b_list, f, I, Ic, kappa)`: the loop
`pax += parallel_loss(elem[0], f); prad += perp_loss(f, elem[1]) / kappa`
(default material constants), then
`round((pax + prad) / len(b_list) + norris_equation(f, I, Ic), 3)`. -/
def supra_winding_ac_loss (b_list : List (ℝ × ℝ)) (f I Ic kappa : ℝ) : ℝ :=
  roundTo 3
    ((b_list.foldl (fun pax elem => pax + parallel_loss elem.1 f C_def ac_def bp_def) 0 +
        b_list.foldl (fun prad elem => prad + perp_loss f elem.2 K_def w_def bc_def / kappa) 0) /
      (b_list.length : ℝ) +
      norris_equation f I Ic)

/-- `cryostat_losses(Acr, dT)`: `k_th = 2.0*1e-3; d_th = 50.0*1e-3;
return round(k_th / d_th * Acr * 1e-6 * dT, 2)`. -/
def cryostat_losses (Acr dT : ℝ) : ℝ :=
  let k_th : ℝ := 2.0 * 1e-3
  let d_th : ℝ := 50.0 * 1e-3
  roundTo 2 (k_th / d_th * Acr * 1e-6 * dT)

/-- `thermal_incomes(I1p, I2p)`: `q_cl = 45.0*1e-3;
return round(6. * q_cl * (I1p + I2p), 2)`. -/
def thermal_incomes (I1p I2p : ℝ) : ℝ :=
  let q_cl : ℝ := 45.0 * 1e-3
  roundTo 2 (6 * q_cl * (I1p + I2p))

/-- Modelled from the spec: the resistivity constant `C_RHO` of
`eddy_loss` is imported from `src.base_functions`, a module absent from the
sources; the spec's language-agnostic signature
`eddy_loss(current_unused_in_formula, thickness, width, frequency, I_c,
resistivity_constant)` passes the resistivity explicitly, so it is taken
here as the explicit argument `C_RHO`.  The body is the source formula
`4*mu_0**2./pi*t*w*f**2/C_RHO*I_c**2`; the first parameter `i` is accepted
but unused, exactly as in the source. -/
def eddy_loss (i t w f I_c C_RHO : ℝ) : ℝ :=
  4 * mu_0 ^ 2 / π * t * w * f ^ 2 / C_RHO * I_c ^ 2

/-- Observable outcome of evaluating one of the Python functions on real
inputs: a finite value, a silently returned non-finite float (NaN/Inf, as
numpy produces for `np.log` of a non-positive argument — only a
`RuntimeWarning` is emitted, no exception), or a raised Python exception. -/
inductive PyResult where
  | val (x : ℝ)
  | nonfinite
  | exn (msg : String)

/-- Runtime behaviour of `parallel_loss`: the cubic branch divides by
`3.*mu_0*bp`, which is zero exactly when `bp = 0` (Python floats raise
`ZeroDivisionError`); the linear branch performs no data-dependent division
and always returns a value, whatever the sign of `bp`. -/
def parallel_loss_run (bpar f C ac bp : ℝ) : PyResult :=
  if bpar ≤ bp then
    if bp = 0 then .exn "ZeroDivisionError: float division by zero"
    else .val (2 * f * C * ac * bpar ^ 3 / (3 * mu_0 * bp))
  else .val (2 * f * C * ac * bp / (3 * mu_0) * (3 * bpar - 2 * bp))

/-- Runtime behaviour of `norris_equation`: `I/Ic` raises
`ZeroDivisionError` when `Ic = 0`; when `1 - I/Ic ≤ 0`, `np.log` returns
`-inf`/`nan` with only a warning and the whole expression evaluates to NaN,
returned silently; otherwise the finite formula value is returned. -/
def norris_run (f I Ic : ℝ) : PyResult :=
  if Ic = 0 then .exn "ZeroDivisionError: float division by zero"
  else if 1 - I / Ic ≤ 0 then .nonfinite
  else .val (norris_equation f I Ic)

/-- Runtime behaviour of `perp_loss`: `beta = bperp / bc` raises
`ZeroDivisionError` when `bc = 0`; then `2.0 / beta` raises
`ZeroDivisionError` when `beta = 0`; otherwise the formula value is
returned. -/
def perp_run (f bperp K w bc : ℝ) : PyResult :=
  if bc = 0 then .exn "ZeroDivisionError: float division by zero"
  else if bperp / bc = 0 then .exn "ZeroDivisionError: float division by zero"
  else .val (perp_loss f bperp K w bc)

/-- The accumulation loop of `supra_winding_ac_loss` with the default
material constants: `parallel_loss(elem[0], f)` never raises
(`bp_def > 0`), `perp_loss(f, elem[1])` raises iff `elem[1] = 0`
(`bc_def > 0`), and the division by `kappa` raises iff `kappa = 0`. -/
def supra_accum (f kappa : ℝ) : List (ℝ × ℝ) → ℝ → ℝ → Except String (ℝ × ℝ)
  | [], pax, prad => .ok (pax, prad)
  | elem :: rest, pax, prad =>
    if elem.2 / bc_def = 0 then .error "ZeroDivisionError: float division by zero"
    else if kappa = 0 then .error "ZeroDivisionError: float division by zero"
    else supra_accum f kappa rest (pax + parallel_loss elem.1 f C_def ac_def bp_def)
      (prad + perp_loss f elem.2 K_def w_def bc_def / kappa)

/-- Runtime behaviour of `supra_winding_ac_loss`: after the loop, the
division `(pax + prad) / len(b_list)` raises `ZeroDivisionError` on an
empty list (`0 / 0` on Python ints); a NaN from `norris_equation`
propagates through `+` and through `round(·, 3)` and is returned silently. -/
def supra_run (b_list : List (ℝ × ℝ)) (f I Ic kappa : ℝ) : PyResult :=
  match supra_accum f kappa b_list 0 0 with
  | .error m => .exn m
  | .ok (pax, prad) =>
    if b_list.length = 0 then .exn "ZeroDivisionError: division by zero"
    else
      match norris_run f I Ic with
      | .exn m => .exn m
      | .nonfinite => .nonfinite
      | .val n => .val (roundTo 3 ((pax + prad) / (b_list.length : ℝ) + n))

/-! ## Helper lemmas -/

lemma real_sign_mul_self (x : ℝ) : Real.sign x * x = |x| := by
  rcases lt_trichotomy x 0 with h | h | h
  · rw [Real.sign_of_neg h, abs_of_neg h]; ring
  · simp [h]
  · rw [Real.sign_of_pos h, abs_of_pos h]; ring

lemma logcosh_abs (x : ℝ) :
    logcosh x = |x| + Real.log (1 + Real.exp (-(2 * |x|))) - Real.log 2 := by
  unfold logcosh
  rw [real_sign_mul_self]

lemma logcosh_zero : logcosh 0 = 0 := by
  rw [logcosh_abs]
  norm_num [Real.exp_zero]

lemma mu_0_pos : (0 : ℝ) < mu_0 := by norm_num [mu_0]

lemma tanh_continuous : Continuous Real.tanh := by
  have h : Real.tanh = fun x : ℝ => Real.sinh x / Real.cosh x :=
    funext fun x => Real.tanh_eq_sinh_div_cosh x
  rw [h]
  exact Real.continuous_sinh.div Real.continuous_cosh fun x => (Real.cosh_pos x).ne'

lemma logcosh_continuous : Continuous logcosh := by
  have h : logcosh = fun x : ℝ =>
      |x| + Real.log (1 + Real.exp (-(2 * |x|))) - Real.log 2 :=
    funext logcosh_abs
  rw [h]
  have h1 : Continuous fun x : ℝ => 1 + Real.exp (-(2 * |x|)) := by
    exact continuous_const.add (Real.continuous_exp.comp
      ((continuous_const.mul continuous_abs).neg))
  have h2 : Continuous fun x : ℝ => Real.log (1 + Real.exp (-(2 * |x|))) := by
    refine continuous_iff_continuousAt.mpr fun x => ?_
    exact (Real.continuousAt_log (by positivity)).comp h1.continuousAt
  exact (continuous_abs.add h2).sub continuous_const

lemma roundTo2_hundredth (x : ℝ) : ∃ k : ℤ, roundTo 2 x = (k : ℝ) / 100 :=
  ⟨pyRound (x * 10 ^ 2), by unfold roundTo; norm_num⟩

lemma roundTo3_thousandth (x : ℝ) : ∃ k : ℤ, roundTo 3 x = (k : ℝ) / 1000 :=
  ⟨pyRound (x * 10 ^ 3), by unfold roundTo; norm_num⟩

lemma pax_fold (f : ℝ) : ∀ (l : List (ℝ × ℝ)) (a : ℝ),
    l.foldl (fun pax elem => pax + parallel_loss elem.1 f C_def ac_def bp_def) a =
      a + (l.map fun elem => parallel_loss elem.1 f C_def ac_def bp_def).sum := by
  intro l
  induction l with
  | nil => intro a; simp
  | cons e t ih =>
    intro a
    rw [List.foldl_cons, ih, List.map_cons, List.sum_cons]
    ring

lemma prad_fold (f kappa : ℝ) : ∀ (l : List (ℝ × ℝ)) (a : ℝ),
    l.foldl (fun prad elem => prad + perp_loss f elem.2 K_def w_def bc_def / kappa) a =
      a + (l.map fun elem => perp_loss f elem.2 K_def w_def bc_def / kappa).sum := by
  intro l
  induction l with
  | nil => intro a; simp
  | cons e t ih =>
    intro a
    rw [List.foldl_cons, ih, List.map_cons, List.sum_cons]
    ring

/-! ## Claim theorems -/

/-- Claim C1: for every real `x`, `logcosh x` equals
`|x| + log1p (exp (-2 * |x|)) - log 2`, and this value equals
`log (cosh x)`.  Over ℝ the value is a (finite) real number for every `x`,
in particular for `x = 1000`, where a literal float `log (cosh x)` would
overflow. -/
theorem logcosh_spec (x : ℝ) :
    logcosh x = |x| + Real.log (1 + Real.exp (-(2 * |x|))) - Real.log 2 ∧
    logcosh x = Real.log (Real.cosh x) := by
  refine ⟨logcosh_abs x, ?_⟩
  have hpos : (0 : ℝ) < 1 + Real.exp (-(2 * |x|)) := by positivity
  have hcosh : Real.cosh x = Real.exp |x| * (1 + Real.exp (-(2 * |x|))) / 2 := by
    rw [Real.cosh_eq]
    have h1 : Real.exp |x| * (1 + Real.exp (-(2 * |x|))) =
        Real.exp |x| + Real.exp (-|x|) := by
      rw [mul_add, mul_one, ← Real.exp_add,
        show |x| + -(2 * |x|) = -|x| from by ring]
    rw [h1]
    rcases abs_cases x with ⟨h, _⟩ | ⟨h, _⟩
    · rw [h]
    · rw [h, neg_neg]; ring
  rw [hcosh, logcosh_abs x,
    Real.log_div (by positivity) (by norm_num),
    Real.log_mul (Real.exp_ne_zero _) hpos.ne', Real.log_exp]

/-- Claim C4: `parallel_loss` returns
`2*f*C*A*b_parallel^3 / (3*mu0*b_penetration)` when
`b_parallel ≤ b_penetration`, and
`2*f*C*A*b_penetration / (3*mu0) * (3*b_parallel - 2*b_penetration)`
when `b_parallel > b_penetration`, for every `b_penetration > 0`. -/
theorem parallel_loss_spec (bpar f C ac bp : ℝ) (hbp : 0 < bp) :
    (bpar ≤ bp →
      parallel_loss bpar f C ac bp = 2 * f * C * ac * bpar ^ 3 / (3 * mu_0 * bp)) ∧
    (bp < bpar →
      parallel_loss bpar f C ac bp =
        2 * f * C * ac * bp / (3 * mu_0) * (3 * bpar - 2 * bp)) := by
  constructor
  · intro h
    rw [parallel_loss, if_pos h]
  · intro h
    rw [parallel_loss, if_neg (not_le.mpr h)]

/-- Claim C4 witness: both branches at concrete inputs
(`bp = 0.03`, cubic branch at `bpar = 0.01`, linear branch at
`bpar = 0.05`). -/
theorem parallel_loss_spec_w :
    parallel_loss 0.01 50 0.77 ac_def 0.03 =
      2 * 50 * 0.77 * ac_def * 0.01 ^ 3 / (3 * mu_0 * 0.03) ∧
    parallel_loss 0.05 50 0.77 ac_def 0.03 =
      2 * 50 * 0.77 * ac_def * 0.03 / (3 * mu_0) * (3 * 0.05 - 2 * 0.03) :=
  ⟨(parallel_loss_spec 0.01 50 0.77 ac_def 0.03 (by norm_num)).1 (by norm_num),
   (parallel_loss_spec 0.05 50 0.77 ac_def 0.03 (by norm_num)).2 (by norm_num)⟩

/-- Claim C5: continuity at the penetration boundary.  At
`b_parallel = b_penetration` (taken by the `≤` branch) `parallel_loss`
equals `2*f*C*A*bp^2/(3*mu0)`, and the cubic- and linear-branch
expressions evaluated at `b_parallel = b_penetration` both equal that same
value, so the two branches agree at exactly the boundary. -/
theorem parallel_loss_boundary (f C ac bp : ℝ) (hbp : 0 < bp) :
    parallel_loss bp f C ac bp = 2 * f * C * ac * bp ^ 2 / (3 * mu_0) ∧
    2 * f * C * ac * bp ^ 3 / (3 * mu_0 * bp) = 2 * f * C * ac * bp ^ 2 / (3 * mu_0) ∧
    2 * f * C * ac * bp / (3 * mu_0) * (3 * bp - 2 * bp) =
      2 * f * C * ac * bp ^ 2 / (3 * mu_0) := by
  have hm : mu_0 ≠ 0 := mu_0_pos.ne'
  have hcubic : 2 * f * C * ac * bp ^ 3 / (3 * mu_0 * bp) =
      2 * f * C * ac * bp ^ 2 / (3 * mu_0) := by
    field_simp
    ring
  refine ⟨?_, hcubic, by ring⟩
  rw [parallel_loss, if_pos le_rfl, hcubic]

/-- Claim C5 witness: boundary agreement at `f = 50`, `C = 0.77`,
`ac = ac_def`, `bp = bp_def = 0.0344`. -/
theorem parallel_loss_boundary_w :
    parallel_loss bp_def 50 0.77 ac_def bp_def =
      2 * 50 * 0.77 * ac_def * bp_def ^ 2 / (3 * mu_0) ∧
    2 * 50 * 0.77 * ac_def * bp_def ^ 3 / (3 * mu_0 * bp_def) =
      2 * 50 * 0.77 * ac_def * bp_def ^ 2 / (3 * mu_0) ∧
    2 * 50 * 0.77 * ac_def * bp_def / (3 * mu_0) * (3 * bp_def - 2 * bp_def) =
      2 * 50 * 0.77 * ac_def * bp_def ^ 2 / (3 * mu_0) :=
  parallel_loss_boundary 50 0.77 ac_def bp_def (by norm_num [bp_def])

/-- Claim C7: for `b_perp ≠ 0` and `b_critical > 0`, `perp_loss` returns
`K*f*w^2*pi/mu0*bc^2*beta*(2/beta*logcosh(beta) - tanh(beta))` with
`beta = b_perp / b_critical`. -/
theorem perp_loss_spec (f bperp K w bc : ℝ) (hb : bperp ≠ 0) (hbc : 0 < bc) :
    perp_loss f bperp K w bc =
      K * f * w ^ 2 * π / mu_0 * bc ^ 2 * (bperp / bc) *
        (2 / (bperp / bc) * logcosh (bperp / bc) - Real.tanh (bperp / bc)) := rfl

/-- Claim C7 witness: the formula at `f = 50`, `b_perp = 0.01` and the
default material constants. -/
theorem perp_loss_spec_w :
    perp_loss 50 0.01 1.35 0.0041 0.015 =
      1.35 * 50 * 0.0041 ^ 2 * π / mu_0 * 0.015 ^ 2 * (0.01 / 0.015) *
        (2 / (0.01 / 0.015) * logcosh (0.01 / 0.015) - Real.tanh (0.01 / 0.015)) :=
  perp_loss_spec 50 0.01 1.35 0.0041 0.015 (by norm_num) (by norm_num)

/-- Claim C9: `eddy_loss` returns `4*mu0^2/pi * t*w*f^2/rho * Ic^2`, and
its first parameter does not affect the result. -/
theorem eddy_loss_spec (i t w f Ic rho : ℝ) :
    eddy_loss i t w f Ic rho = 4 * mu_0 ^ 2 / π * t * w * f ^ 2 / rho * Ic ^ 2 ∧
    ∀ i1 i2 : ℝ, eddy_loss i1 t w f Ic rho = eddy_loss i2 t w f Ic rho :=
  ⟨rfl, fun _ _ => rfl⟩

lemma norris_core_nonneg (r : ℝ) (h0 : 0 ≤ r) (h1 : r < 1) :
    0 ≤ (1 - r) * Real.log (1 - r) + (r - r ^ 2 / 2) := by
  have hu : 0 < 1 - r := by linarith
  set t : ℝ := -Real.log (1 - r) with ht_def
  have hlog : Real.log (1 - r) = -t := by rw [ht_def, neg_neg]
  have ht : 0 ≤ t := by
    have h : Real.log (1 - r) ≤ 0 := Real.log_nonpos (by linarith) (by linarith)
    rw [ht_def]
    linarith
  have hexp : Real.exp (-t) = 1 - r := by
    rw [ht_def, neg_neg, Real.exp_log hu]
  have hsinh : t ≤ Real.sinh t := Real.self_le_sinh_iff.mpr ht
  have h2 : 2 * t ≤ Real.exp t - Real.exp (-t) := by
    rw [Real.sinh_eq] at hsinh
    linarith
  have hE1 : Real.exp t * Real.exp (-t) = 1 := by
    rw [← Real.exp_add]
    simp
  have hEpos : (0 : ℝ) < Real.exp (-t) := Real.exp_pos _
  have h3 : 2 * t * Real.exp (-t) ≤ (Real.exp t - Real.exp (-t)) * Real.exp (-t) :=
    mul_le_mul_of_nonneg_right h2 hEpos.le
  have hr : r = 1 - Real.exp (-t) := by linarith
  rw [hlog, hr]
  nlinarith [h3, hE1]

/-- Claim C6: for `f ≥ 0`, `Ic > 0` and `0 ≤ I < Ic`, `norris_equation`
returns `f*Ic^2*mu0/pi * ((1 - I/Ic)*ln(1 - I/Ic) + (I/Ic - I^2/(2*Ic^2)))`
and this (finite real) value is non-negative. -/
theorem norris_equation_spec (f I Ic : ℝ) (hf : 0 ≤ f) (hIc : 0 < Ic)
    (hI0 : 0 ≤ I) (hI : I < Ic) :
    norris_equation f I Ic =
      f * Ic ^ 2 * mu_0 / π *
        ((1 - I / Ic) * Real.log (1 - I / Ic) + (I / Ic - I ^ 2 / (2 * Ic ^ 2))) ∧
    0 ≤ norris_equation f I Ic := by
  refine ⟨rfl, ?_⟩
  have hr0 : 0 ≤ I / Ic := div_nonneg hI0 hIc.le
  have hr1 : I / Ic < 1 := (div_lt_one hIc).mpr hI
  have hcore := norris_core_nonneg (I / Ic) hr0 hr1
  have hpref : 0 ≤ f * Ic ^ 2 * mu_0 / π :=
    div_nonneg (mul_nonneg (mul_nonneg hf (sq_nonneg Ic)) mu_0_pos.le) Real.pi_pos.le
  have htail : I / Ic - I ^ 2 / (2 * Ic ^ 2) = I / Ic - (I / Ic) ^ 2 / 2 := by
    rw [div_pow]
    ring
  rw [norris_equation, htail]
  exact mul_nonneg hpref hcore

/-- Claim C6 witness: the Norris loss at `f = 50`, `I = 50`, `Ic = 170`. -/
theorem norris_equation_spec_w :
    norris_equation 50 50 170 =
      50 * 170 ^ 2 * mu_0 / π *
        ((1 - 50 / 170) * Real.log (1 - 50 / 170) +
          (50 / 170 - 50 ^ 2 / (2 * 170 ^ 2))) ∧
    0 ≤ norris_equation 50 50 170 :=
  norris_equation_spec 50 50 170 (by norm_num) (by norm_num) (by norm_num)
    (by norm_num)

/-- Claim C2: for a non-empty field profile and `kappa > 0`,
`supra_winding_ac_loss` returns
`round((Σ parallel_loss(axial, f) + Σ perp_loss(f, radial)/kappa) / N
+ norris_equation(f, I, Ic), 3)` with `N` the number of samples, and the
result is an integer multiple of `1/1000` (exactly 3 decimal places). -/
theorem supra_winding_ac_loss_spec (b_list : List (ℝ × ℝ)) (f I Ic kappa : ℝ)
    (hne : b_list ≠ []) (hk : 0 < kappa) :
    supra_winding_ac_loss b_list f I Ic kappa =
      roundTo 3
        (((b_list.map fun elem => parallel_loss elem.1 f C_def ac_def bp_def).sum +
            (b_list.map fun elem => perp_loss f elem.2 K_def w_def bc_def / kappa).sum) /
          (b_list.length : ℝ) +
          norris_equation f I Ic) ∧
    ∃ k : ℤ, supra_winding_ac_loss b_list f I Ic kappa = (k : ℝ) / 1000 := by
  constructor
  · rw [supra_winding_ac_loss, pax_fold, prad_fold, zero_add, zero_add]
  · rw [supra_winding_ac_loss]
    exact roundTo3_thousandth _

/-- Claim C2 witness: the two-sample profile of the spec's golden test,
`f = 50`, `I = 50`, `Ic = 170`, `kappa = 1.2`. -/
theorem supra_winding_ac_loss_spec_w :
    supra_winding_ac_loss [(0.02, 0.01), (0.03, 0.015)] 50 50 170 1.2 =
      roundTo 3
        ((([((0.02 : ℝ), (0.01 : ℝ)), (0.03, 0.015)].map
              fun elem => parallel_loss elem.1 50 C_def ac_def bp_def).sum +
            ([((0.02 : ℝ), (0.01 : ℝ)), (0.03, 0.015)].map
              fun elem => perp_loss 50 elem.2 K_def w_def bc_def / 1.2).sum) /
          (([((0.02 : ℝ), (0.01 : ℝ)), (0.03, 0.015)] : List (ℝ × ℝ)).length : ℝ) +
          norris_equation 50 50 170) ∧
    ∃ k : ℤ,
      supra_winding_ac_loss [(0.02, 0.01), (0.03, 0.015)] 50 50 170 1.2 =
        (k : ℝ) / 1000 :=
  supra_winding_ac_loss_spec [(0.02, 0.01), (0.03, 0.015)] 50 50 170 1.2
    (List.cons_ne_nil _ _) (by norm_num)

/-- Claim C8: `cryostat_losses(Acr, dT)` returns
`round(k_th/d_th * Acr * 1e-6 * dT, 2)` with `k_th = 2e-3`,
`d_th = 50e-3`, and `thermal_incomes(I1p, I2p)` returns
`round(6 * q_cl * (I1p + I2p), 2)` with `q_cl = 45e-3`; both results are
integer multiples of `1/100` (exactly 2 decimal places). -/
theorem rounding_contracts (Acr dT I1p I2p : ℝ) :
    cryostat_losses Acr dT = roundTo 2 (2.0 * 1e-3 / (50.0 * 1e-3) * Acr * 1e-6 * dT) ∧
    thermal_incomes I1p I2p = roundTo 2 (6 * (45.0 * 1e-3) * (I1p + I2p)) ∧
    (∃ k : ℤ, cryostat_losses Acr dT = (k : ℝ) / 100) ∧
    ∃ k : ℤ, thermal_incomes I1p I2p = (k : ℝ) / 100 := by
  refine ⟨rfl, rfl, ?_, ?_⟩
  · rw [cryostat_losses]
    exact roundTo2_hundredth _
  · rw [thermal_incomes]
    exact roundTo2_hundredth _

/-- Claim C3 counterexample: `norris_equation(50, 170, 170)` (the
documented violation `I >= I_c`) does not fail fast with any error — it
silently evaluates to a non-finite float (NaN: `np.log(0.0)` is `-inf`
with only a `RuntimeWarning`, and `0.0 * -inf` is NaN), refuting the claim
that every documented domain violation raises a descriptive error. -/
theorem norris_run_silent_nan : norris_run 50 170 170 = PyResult.nonfinite := by
  rw [norris_run, if_neg (by norm_num : (170 : ℝ) ≠ 0),
    if_pos (by norm_num : (1 : ℝ) - 170 / 170 ≤ 0)]

/-- Claim C3 amended: the code performs no precondition validation.
`norris_equation` with `0 < I_c ≤ I` silently returns a non-finite value
(NaN) with no error; `parallel_loss` with negative `b_penetration` on the
linear branch silently returns a finite value; `parallel_loss` with
`b_penetration = 0` on the cubic branch and `supra_winding_ac_loss` on an
empty profile raise only Python's generic `ZeroDivisionError`, whose
message does not identify the violated precondition. -/
theorem no_precondition_validation (f I Ic bpar C ac bp kappa : ℝ) :
    (0 < Ic → Ic ≤ I → norris_run f I Ic = PyResult.nonfinite) ∧
    (bp < 0 → bp < bpar →
      parallel_loss_run bpar f C ac bp =
        PyResult.val (2 * f * C * ac * bp / (3 * mu_0) * (3 * bpar - 2 * bp))) ∧
    (bpar ≤ 0 →
      parallel_loss_run bpar f C ac 0 =
        PyResult.exn "ZeroDivisionError: float division by zero") ∧
    supra_run [] f I Ic kappa = PyResult.exn "ZeroDivisionError: division by zero" := by
  refine ⟨?_, ?_, ?_, ?_⟩
  · intro h1 h2
    have hle : 1 - I / Ic ≤ 0 := by
      have : (1 : ℝ) ≤ I / Ic := (one_le_div h1).mpr h2
      linarith
    rw [norris_run, if_neg h1.ne', if_pos hle]
  · intro h1 h2
    rw [parallel_loss_run, if_neg (not_le.mpr h2)]
  · intro h1
    rw [parallel_loss_run, if_pos h1, if_pos rfl]
  · rfl

/-- Claim C3 amended witness: concrete instances — `norris_equation` at
`(50, 200, 170)`, `parallel_loss` at `bp = -0.01` (linear branch) and at
`bp = 0` (cubic branch), and the aggregator on the empty profile. -/
theorem no_precondition_validation_w :
    norris_run 50 200 170 = PyResult.nonfinite ∧
    parallel_loss_run 0.01 50 0.77 ac_def (-0.01) =
      PyResult.val (2 * 50 * 0.77 * ac_def * (-0.01) / (3 * mu_0) *
        (3 * 0.01 - 2 * (-0.01))) ∧
    parallel_loss_run (-0.01) 50 0.77 ac_def 0 =
      PyResult.exn "ZeroDivisionError: float division by zero" ∧
    supra_run [] 50 50 170 1.2 = PyResult.exn "ZeroDivisionError: division by zero" := by
  have h := no_precondition_validation 50 200 170 0.01 0.77 ac_def (-0.01) 1.2
  have h0 := no_precondition_validation 50 200 170 (-0.01) 0.77 ac_def 0 1.2
  exact ⟨h.1 (by norm_num) (by norm_num), h.2.1 (by norm_num) (by norm_num),
    h0.2.2.1 (by norm_num), h.2.2.2⟩

/-- Claim C10: `perp_loss` does not special-case a zero perpendicular
field: at `b_perp = 0` (with `b_critical > 0`) the expression `2.0/beta`
divides by zero, so the evaluation yields no finite number — it aborts
with Python's generic `ZeroDivisionError`, an error that does not identify
the zero-field / removable-singularity condition — even though the
mathematical limit of `perp_loss` as `b_perp → 0` exists and is finite
(namely `0`). -/
theorem perp_loss_zero_field (f K w bc : ℝ) (hbc : 0 < bc) :
    perp_run f 0 K w bc = PyResult.exn "ZeroDivisionError: float division by zero" ∧
    Filter.Tendsto (fun b => perp_loss f b K w bc)
      (nhdsWithin 0 {b : ℝ | b ≠ 0}) (nhds 0) := by
  constructor
  · rw [perp_run, if_neg hbc.ne', if_pos (by simp : (0 : ℝ) / bc = 0)]
  · have hbc' : bc ≠ 0 := hbc.ne'
    have key : ∀ b : ℝ, b ≠ 0 →
        perp_loss f b K w bc =
          K * f * w ^ 2 * π / mu_0 * bc ^ 2 *
            (2 * logcosh (b / bc) - b / bc * Real.tanh (b / bc)) := by
      intro b hb
      have hβ : b / bc ≠ 0 := div_ne_zero hb hbc'
      have h2 : b / bc * (2 / (b / bc)) = 2 := by
        rw [mul_comm, div_mul_cancel₀ _ hβ]
      rw [perp_loss,
        show K * f * w ^ 2 * π / mu_0 * bc ^ 2 * (b / bc) *
            (2 / (b / bc) * logcosh (b / bc) - Real.tanh (b / bc)) =
          K * f * w ^ 2 * π / mu_0 * bc ^ 2 *
            (b / bc * (2 / (b / bc)) * logcosh (b / bc) -
              b / bc * Real.tanh (b / bc)) from by ring,
        h2]
    have hdiv : Continuous fun b : ℝ => b / bc := continuous_id.div_const bc
    have hcont : Continuous fun b : ℝ =>
        K * f * w ^ 2 * π / mu_0 * bc ^ 2 *
          (2 * logcosh (b / bc) - b / bc * Real.tanh (b / bc)) :=
      continuous_const.mul
        (((continuous_const.mul (logcosh_continuous.comp hdiv)).sub
          (hdiv.mul (tanh_continuous.comp hdiv))))
    have hval : K * f * w ^ 2 * π / mu_0 * bc ^ 2 *
        (2 * logcosh ((0 : ℝ) / bc) - (0 : ℝ) / bc * Real.tanh ((0 : ℝ) / bc)) = 0 := by
      rw [zero_div, logcosh_zero, Real.tanh_zero]
      ring
    have htends := hcont.tendsto 0
    rw [hval] at htends
    exact (tendsto_nhdsWithin_of_tendsto_nhds htends).congr'
      (Filter.eventuallyEq_of_mem self_mem_nhdsWithin fun b hb => (key b hb).symm)

/-- Claim C10 witness: zero perpendicular field with the default material
constants (`K = 1.35`, `w = 0.0041`, `bc = 0.015`) at `f = 50`. -/
theorem perp_loss_zero_field_w :
    perp_run 50 0 1.35 0.0041 0.015 =
      PyResult.exn "ZeroDivisionError: float division by zero" ∧
    Filter.Tendsto (fun b => perp_loss 50 b 1.35 0.0041 0.015)
      (nhdsWithin 0 {b : ℝ | b ≠ 0}) (nhds 0) :=
  perp_loss_zero_field 50 1.35 0.0041 0.015 (by norm_num)

end
